import Mathlib

/-!
Shallow embedding of the APEX-Finance portfolio engine
(`src/stock.py` and `src/stockportfolio.py`).

Python numbers are modelled as `ℚ`.  A raised exception is modelled either
as `Except PyErr` (for fallible constructors) or as a `_ × Option PyErr`
result pair (for mutating methods, so that the state at the moment the
exception escapes is visible).  Calls to the external market-data provider
(`yfinance`) are modelled as explicit function parameters: a provider
snapshot is a record of optional fields (a Python dict), and a history
fetch outcome is `Option` of a date-indexed close-price series, `none`
standing for a raised provider exception.
-/

/-- Python exception classes raised by the embedded code. -/
inductive PyErr
  | keyError
  | valueError
  | connectionError
deriving DecidableEq

/-- One entry of the provider's `companyOfficers` list.  The source reads it
with `dict.get(key, default)`, so every field is optional. -/
structure Officer where
  name : Option String := none
  title : Option String := none
  age : Option ℚ := none
  yearBorn : Option ℚ := none
  totalPay : Option ℚ := none
deriving DecidableEq

/-- The provider quote snapshot `yf.Ticker(t).info`: a Python dict whose keys
may each be absent.  Field names follow the dict keys used in `src/stock.py`
(the key `"open"` is rendered `openPrice` because `open` is reserved). -/
structure Snapshot where
  longName : Option String := none
  sector : Option String := none
  industry : Option String := none
  phone : Option String := none
  longBusinessSummary : Option String := none
  website : Option String := none
  fullTimeEmployees : Option ℚ := none
  companyOfficers : Option (List Officer) := none
  address1 : Option String := none
  city : Option String := none
  state : Option String := none
  country : Option String := none
  zip : Option String := none
  trailingPE : Option ℚ := none
  forwardPE : Option ℚ := none
  priceToBook : Option ℚ := none
  dividendYield : Option ℚ := none
  dividendRate : Option ℚ := none
  beta : Option ℚ := none
  trailingEps : Option ℚ := none
  targetMeanPrice : Option ℚ := none
  recommendationKey : Option String := none
  currentPrice : Option ℚ := none
  previousClose : Option ℚ := none
  openPrice : Option ℚ := none
  dayHigh : Option ℚ := none
  dayLow : Option ℚ := none
  volume : Option ℚ := none
  fiftyTwoWeekRange : Option String := none
  marketCap : Option ℚ := none
  totalRevenue : Option ℚ := none
  netIncomeToCommon : Option ℚ := none
  totalCash : Option ℚ := none
  totalDebt : Option ℚ := none
  freeCashflow : Option ℚ := none
  grossMargins : Option ℚ := none
  operatingMargins : Option ℚ := none
  returnOnEquity : Option ℚ := none
  returnOnAssets : Option ℚ := none
  debtToEquity : Option ℚ := none
deriving DecidableEq

/-- Strict Python dict indexing `data["k"]`: raises `KeyError` when the key
is absent.  This is the access pattern used throughout `src/stock.py`. -/
def dGet {α : Type} : Option α → Except PyErr α
  | none => .error .keyError
  | some v => .ok v

/-- Python `str.upper()`: uppercase every character. -/
def pyUpper (s : String) : String := ⟨s.data.map Char.toUpper⟩

/-- A Python value that is either a proper value or the string sentinel
`"N/A"` substituted by `dict.get(key, "N/A")` for a missing key. -/
inductive NAor (α : Type)
  | na
  | val (v : α)
deriving DecidableEq

/-- `dict.get(key, "N/A")` for a non-string field. -/
def naOf {α : Type} : Option α → NAor α
  | none => .na
  | some v => .val v

/-- `ExecutiveMember` from `src/stock.py`: every field is read with
`member.get(key, "N/A")`, so construction never fails. -/
structure ExecutiveMember where
  name : String
  title : String
  age : NAor ℚ
  birth_year : NAor ℚ
  pay : NAor ℚ
deriving DecidableEq

/-- `ExecutiveMember.__init__`. -/
def ExecutiveMember.init (member : Officer) : ExecutiveMember where
  name := member.name.getD "N/A"
  title := member.title.getD "N/A"
  age := naOf member.age
  birth_year := naOf member.yearBorn
  pay := naOf member.totalPay

/-- `ExecutiveBoard` from `src/stock.py`. -/
structure ExecutiveBoard where
  executive_board : List ExecutiveMember
deriving DecidableEq

/-- `ExecutiveBoard.__init__`. -/
def ExecutiveBoard.init (executive_member_data : List Officer) : ExecutiveBoard where
  executive_board := executive_member_data.map ExecutiveMember.init

/-- `Address` from `src/stock.py`: strict dict indexing on every field. -/
structure Address where
  line1 : String
  city : String
  state : String
  country : String
  zip : String
deriving DecidableEq

/-- `Address.__init__`. -/
def Address.init (data : Snapshot) : Except PyErr Address := do
  let line1 ← dGet data.address1
  let city ← dGet data.city
  let state ← dGet data.state
  let country ← dGet data.country
  let zip ← dGet data.zip
  return { line1, city, state, country, zip }

/-- `CompanyInfo` from `src/stock.py`. -/
structure CompanyInfo where
  name : String
  sector : String
  industry : String
  phone : String
  summary : String
  website : String
  employees : ℚ
  executive_board : ExecutiveBoard
  address : Address
deriving DecidableEq

/-- `CompanyInfo.__init__`: strict dict indexing on every field, in source
order. -/
def CompanyInfo.init (data : Snapshot) : Except PyErr CompanyInfo := do
  let name ← dGet data.longName
  let sector ← dGet data.sector
  let industry ← dGet data.industry
  let phone ← dGet data.phone
  let summary ← dGet data.longBusinessSummary
  let website ← dGet data.website
  let employees ← dGet data.fullTimeEmployees
  let officers ← dGet data.companyOfficers
  let address ← Address.init data
  return { name, sector, industry, phone, summary, website, employees,
           executive_board := ExecutiveBoard.init officers, address }

/-- `ValuationMetrics` from `src/stock.py`. -/
structure ValuationMetrics where
  pe : ℚ
  forward_pe : ℚ
  pb_ratio : ℚ
  dividend_yield : ℚ
  dividend_rate : ℚ
  beta : ℚ
  eps : ℚ
  target_mean_price : ℚ
  recommendation : String
deriving DecidableEq

/-- `ValuationMetrics.__init__`: strict dict indexing on every field. -/
def ValuationMetrics.init (data : Snapshot) : Except PyErr ValuationMetrics := do
  let pe ← dGet data.trailingPE
  let forward_pe ← dGet data.forwardPE
  let pb_ratio ← dGet data.priceToBook
  let dividend_yield ← dGet data.dividendYield
  let dividend_rate ← dGet data.dividendRate
  let beta ← dGet data.beta
  let eps ← dGet data.trailingEps
  let target_mean_price ← dGet data.targetMeanPrice
  let recommendation ← dGet data.recommendationKey
  return { pe, forward_pe, pb_ratio, dividend_yield, dividend_rate, beta, eps,
           target_mean_price, recommendation }

/-- `MarketData` from `src/stock.py`. -/
structure MarketData where
  current_price : ℚ
  previous_close : ℚ
  open_price : ℚ
  day_high : ℚ
  day_low : ℚ
  volume : ℚ
  fifty_two_week_range : String
  market_cap : ℚ
deriving DecidableEq

/-- `MarketData.__init__`: strict dict indexing on every field; the price is
`data["currentPrice"]` with no fallback to any other field. -/
def MarketData.init (data : Snapshot) : Except PyErr MarketData := do
  let current_price ← dGet data.currentPrice
  let previous_close ← dGet data.previousClose
  let open_price ← dGet data.openPrice
  let day_high ← dGet data.dayHigh
  let day_low ← dGet data.dayLow
  let volume ← dGet data.volume
  let fifty_two_week_range ← dGet data.fiftyTwoWeekRange
  let market_cap ← dGet data.marketCap
  return { current_price, previous_close, open_price, day_high, day_low,
           volume, fifty_two_week_range, market_cap }

/-- `Financials` from `src/stock.py`. -/
structure Financials where
  revenue : ℚ
  net_income : ℚ
  total_cash : ℚ
  total_debt : ℚ
  free_cash_flow : ℚ
  gross_margin : ℚ
  operating_margin : ℚ
  return_on_equity : ℚ
  return_on_assets : ℚ
  debt_to_equity : ℚ
deriving DecidableEq

/-- `Financials.__init__`: strict dict indexing on every field. -/
def Financials.init (data : Snapshot) : Except PyErr Financials := do
  let revenue ← dGet data.totalRevenue
  let net_income ← dGet data.netIncomeToCommon
  let total_cash ← dGet data.totalCash
  let total_debt ← dGet data.totalDebt
  let free_cash_flow ← dGet data.freeCashflow
  let gross_margin ← dGet data.grossMargins
  let operating_margin ← dGet data.operatingMargins
  let return_on_equity ← dGet data.returnOnEquity
  let return_on_assets ← dGet data.returnOnAssets
  let debt_to_equity ← dGet data.debtToEquity
  return { revenue, net_income, total_cash, total_debt, free_cash_flow,
           gross_margin, operating_margin, return_on_equity, return_on_assets,
           debt_to_equity }

/-- Python `round(x, 2)` on rationals: round to the nearest hundredth.
(Ties, which Python breaks to even, do not occur in any statement below.) -/
def round2 (x : ℚ) : ℚ := ((round (100 * x) : ℤ) : ℚ) / 100

/-- `Change` from `src/stock.py`.  The stored `datetime.now()` timestamp only
parameterizes the external fetch window and is not modelled. -/
structure Change where
  ticker : String
  current_price : ℚ
deriving DecidableEq

/-- A Python/numpy float as this embedding needs it: a finite rational, or
one of the non-finite IEEE values that float division by zero produces. -/
inductive PyFloat
  | fin (q : ℚ)
  | inf
  | ninf
  | nan
deriving DecidableEq

/-- Float division `a / b` where `b` came out of a pandas `Series` (a
`numpy.float64`): a finite quotient for a non-zero denominator; for a zero
denominator numpy emits a RuntimeWarning and yields `inf`, `-inf` or `nan`
by the numerator's sign, rather than raising. -/
def pyDiv (a b : ℚ) : PyFloat :=
  if b = 0 then
    if 0 < a then .inf else if a < 0 then .ninf else .nan
  else .fin (a / b)

/-- Multiplying such a float by 100: IEEE `inf * 100 = inf`,
`-inf * 100 = -inf`, `nan * 100 = nan`. -/
def pyMul100 : PyFloat → PyFloat
  | .fin q => .fin (q * 100)
  | .inf => .inf
  | .ninf => .ninf
  | .nan => .nan

/-- Python `round(x, 2)` on such a float: rounds a finite value and returns
a non-finite one unchanged. -/
def pyRound2 : PyFloat → PyFloat
  | .fin q => .fin (round2 q)
  | .inf => .inf
  | .ninf => .ninf
  | .nan => .nan

/-- `Change.calculate_change(days)` from `src/stock.py` (lines 259-265).
`hist` is the `Close` column of the window the provider returned for
`[now - days, now]`.  The code takes `.iloc[0]` of that column — an
`IndexError` on an empty series, modelled `none` — and then computes
`round(float(current - first), 2)` and
`round(float(dollar / first * 100), 2)`; the division is numpy float
division, so a zero first close gives a non-finite percent instead of an
error. -/
def Change.calculate_change (c : Change) (hist : List ℚ) : Option (ℚ × PyFloat) :=
  match hist with
  | [] => none
  | change_price :: _ =>
    let dollar := round2 (c.current_price - change_price)
    some (dollar, pyRound2 (pyMul100 (pyDiv dollar change_price)))

/-- `History` from `src/stock.py` (the stored timestamp is not modelled). -/
structure History where
  ticker : String
deriving DecidableEq

/-- Modelled from the spec: the source has no `RiskMetrics` class under
`src/` — only its callers (`stockportfolio.get_risk_reward_data`) and the
tests (`s.risk_metrics.get_sharpe_ratio`) refer to it.  Per spec §2/§4.4 it
is a bundle of derived metrics (annualized return, annualized volatility,
Sharpe ratio, Treynor ratio) computed from a position's history and beta;
each accessor returns a plain number (0.0 on degenerate input, never
raising).  The bundle is absent (`none` on the owning `Stock`) when the
history fetch failed. -/
structure RiskMetrics where
  annualized_return : ℚ
  annualized_volatility : ℚ
  sharpe_ratio : ℚ
  treynor_ratio : ℚ
deriving DecidableEq

/-- Modelled from the spec: accessor of the derived annualized return. -/
def RiskMetrics.get_annualized_return (rm : RiskMetrics) : ℚ := rm.annualized_return

/-- Modelled from the spec: accessor of the derived annualized volatility. -/
def RiskMetrics.get_annualized_volatility (rm : RiskMetrics) : ℚ := rm.annualized_volatility

/-- Modelled from the spec: accessor of the derived Sharpe ratio. -/
def RiskMetrics.get_sharpe_ratio (rm : RiskMetrics) : ℚ := rm.sharpe_ratio

/-- Modelled from the spec: accessor of the derived Treynor ratio. -/
def RiskMetrics.get_treynor_ratio (rm : RiskMetrics) : ℚ := rm.treynor_ratio

/-- `Stock` from `src/stock.py`.  The `risk_metrics` field is modelled from
the spec (see `RiskMetrics`); every other field mirrors `Stock.__init__`. -/
structure Stock where
  ticker_symbol : String
  company_info : CompanyInfo
  valuation : ValuationMetrics
  market_data : MarketData
  financials : Financials
  quantity_held : ℚ
  change : Change
  history : History
  risk_metrics : Option RiskMetrics
deriving DecidableEq

/-- `Stock.__init__(ticker_symbol, quantity=1)`: uppercases the ticker,
fetches the provider snapshot (here a parameter), builds the four attribute
bundles with strict indexing, and stores the quantity unvalidated.  `rm` is
the spec-modelled risk-metrics outcome (see `RiskMetrics`). -/
def Stock.init (data : Snapshot) (rm : Option RiskMetrics)
    (ticker_symbol : String) (quantity : ℚ) : Except PyErr Stock :=
  match CompanyInfo.init data with
  | .error e => .error e
  | .ok company_info =>
    match ValuationMetrics.init data with
    | .error e => .error e
    | .ok valuation =>
      match MarketData.init data with
      | .error e => .error e
      | .ok market_data =>
        match Financials.init data with
        | .error e => .error e
        | .ok financials =>
          .ok { ticker_symbol := pyUpper ticker_symbol, company_info, valuation,
                market_data, financials, quantity_held := quantity,
                change := { ticker := pyUpper ticker_symbol,
                            current_price := market_data.current_price },
                history := { ticker := pyUpper ticker_symbol },
                risk_metrics := rm }

/-- `Stock.get_quantity_held`. -/
def Stock.get_quantity_held (s : Stock) : ℚ := s.quantity_held

/-- `Stock.increase_quantity`: raises `ValueError` on `amount <= 0`, leaving
the state untouched; otherwise adds. -/
def Stock.increase_quantity (s : Stock) (amount : ℚ) : Stock × Option PyErr :=
  if amount ≤ 0 then (s, some .valueError)
  else ({ s with quantity_held := s.quantity_held + amount }, none)

/-- `Stock.decrease_quantity`: raises `ValueError` when the amount exceeds
the quantity held or is non-positive (checked in that source order), leaving
the state untouched; otherwise subtracts. -/
def Stock.decrease_quantity (s : Stock) (amount : ℚ) : Stock × Option PyErr :=
  if s.quantity_held < amount then (s, some .valueError)
  else if amount ≤ 0 then (s, some .valueError)
  else ({ s with quantity_held := s.quantity_held - amount }, none)

/-- `Stock.get_total_value`. -/
def Stock.get_total_value (s : Stock) : ℚ :=
  s.market_data.current_price * s.quantity_held

/-- `Stock.refresh_data`: re-fetches the snapshot (the fetch outcome is the
parameter `fetched`, `none` standing for a raised provider exception) and
replaces the four attribute bundles one assignment at a time, with no
`try/except` anywhere.  The embedding threads the state statement by
statement so that the state at the moment an exception escapes is exact. -/
def Stock.refresh_data (fetched : Option Snapshot) (s : Stock) :
    Stock × Option PyErr :=
  match fetched with
  | none => (s, some .connectionError)
  | some data =>
    match CompanyInfo.init data with
    | .error e => (s, some e)
    | .ok ci =>
      match ValuationMetrics.init data with
      | .error e => ({ s with company_info := ci }, some e)
      | .ok v =>
        match MarketData.init data with
        | .error e => ({ s with company_info := ci, valuation := v }, some e)
        | .ok md =>
          match Financials.init data with
          | .error e =>
            ({ s with company_info := ci, valuation := v, market_data := md }, some e)
          | .ok f =>
            ({ s with company_info := ci, valuation := v, market_data := md,
                      financials := f }, none)

/-- A portfolio's `{ticker: Stock}` dict, modelled as an insertion-ordered
association list (Python dicts preserve insertion order). -/
abbrev StockDict := List (String × Stock)

/-- Dict lookup `self.stocks[t]` / `t in self.stocks` (first match). -/
def lookupTicker : StockDict → String → Option Stock
  | [], _ => none
  | (k, s) :: rest, t => if k = t then some s else lookupTicker rest t

/-- In-place replacement of the `Stock` stored under an existing key
(Python mutates the object held in the dict). -/
def updateTicker : StockDict → String → Stock → StockDict
  | [], _, _ => []
  | (k, s) :: rest, t, v =>
    if k = t then (k, v) :: rest else (k, s) :: updateTicker rest t v

/-- `StockPortfolio` from `src/stockportfolio.py`. -/
structure StockPortfolio where
  name : String := "My Portfolio"
  stocks : StockDict := []
deriving DecidableEq

/-- `sum(stock.get_total_value() for stock in self.stocks.values())`. -/
def sumValues : StockDict → ℚ
  | [] => 0
  | (_, s) :: rest => s.get_total_value + sumValues rest

/-- `StockPortfolio.get_portfolio_value`. -/
def StockPortfolio.get_portfolio_value (p : StockPortfolio) : ℚ :=
  match p.stocks with
  | [] => 0
  | _ :: _ => sumValues p.stocks

/-- `StockPortfolio.add_stock(ticker_symbol, quantity=1)`: uppercases the
ticker; if present, `increase_quantity` on the existing `Stock`; else
constructs a new `Stock` and inserts it.  The `except` clause prints and
re-raises, so every failure propagates with the portfolio left as it was
(the dict assignment only runs after construction returns).  `provider`
models `yf.Ticker(t).info` and `rmOf` the spec-modelled risk metrics. -/
def StockPortfolio.add_stock (provider : String → Snapshot)
    (rmOf : String → Option RiskMetrics) (p : StockPortfolio)
    (ticker_symbol : String) (quantity : ℚ) : StockPortfolio × Option PyErr :=
  let ticker := pyUpper ticker_symbol
  match lookupTicker p.stocks ticker with
  | some s =>
    match s.increase_quantity quantity with
    | (s2, none) => ({ p with stocks := updateTicker p.stocks ticker s2 }, none)
    | (_, some e) => (p, some e)
  | none =>
    match Stock.init (provider ticker) (rmOf ticker) ticker quantity with
    | .ok s => ({ p with stocks := p.stocks ++ [(ticker, s)] }, none)
    | .error e => (p, some e)

/-- `StockPortfolio.sell_stock`: `KeyError` if the ticker is absent;
otherwise `decrease_quantity` on the held `Stock`, re-raising its
`ValueError` as a `ValueError`.  A quantity that reaches 0 is kept in the
dict (the source removes nothing here). -/
def StockPortfolio.sell_stock (p : StockPortfolio) (ticker_symbol : String)
    (quantity : ℚ) : StockPortfolio × Option PyErr :=
  let ticker := pyUpper ticker_symbol
  match lookupTicker p.stocks ticker with
  | none => (p, some .keyError)
  | some s =>
    match s.decrease_quantity quantity with
    | (s2, none) => ({ p with stocks := updateTicker p.stocks ticker s2 }, none)
    | (_, some _) => (p, some .valueError)

/-- Python truthiness of `stock.company_info.sector or "Unknown"`: the only
falsy `String` is the empty one (a provider `None` is modelled as `""`). -/
def pyOrUnknown (sector : String) : String :=
  if sector = "" then "Unknown" else sector

/-- `d[k] = d.get(k, 0) + v` on a `{sector: value}` dict. -/
def dictAddValue : List (String × ℚ) → String → ℚ → List (String × ℚ)
  | [], k, v => [(k, v)]
  | (k0, v0) :: rest, k, v =>
    if k0 = k then (k0, v0 + v) :: rest else (k0, v0) :: dictAddValue rest k v

/-- `d[k] = v` on a `{sector: value}` dict (dict-comprehension semantics:
a repeated key overwrites). -/
def dictSet : List (String × ℚ) → String → ℚ → List (String × ℚ)
  | [], k, v => [(k, v)]
  | (k0, v0) :: rest, k, v =>
    if k0 = k then (k0, v) :: rest else (k0, v0) :: dictSet rest k v

/-- The accumulation loop of `holding_by_sector` (the non-zero-total branch). -/
def sectorDict : StockDict → List (String × ℚ) → List (String × ℚ)
  | [], acc => acc
  | (_, s) :: rest, acc =>
    sectorDict rest
      (dictAddValue acc (pyOrUnknown s.company_info.sector) s.get_total_value)

/-- The `total_value == 0` branch of `holding_by_sector`: the dict
comprehension `{stock.company_info.sector: 0.0 for ...}` — note it keys by
the raw sector, without the `or "Unknown"` coercion. -/
def zeroSectorDict : StockDict → List (String × ℚ) → List (String × ℚ)
  | [], acc => acc
  | (_, s) :: rest, acc =>
    zeroSectorDict rest (dictSet acc s.company_info.sector 0)

/-- `StockPortfolio.holding_by_sector`. -/
def StockPortfolio.holding_by_sector (p : StockPortfolio) :
    List (String × ℚ) :=
  match p.stocks with
  | [] => []
  | _ :: _ =>
    let total := p.get_portfolio_value
    if total = 0 then zeroSectorDict p.stocks []
    else (sectorDict p.stocks []).map (fun kv => (kv.1, round2 (kv.2 / total * 100)))

/-- `combined_df['TotalValue'] = combined_df['TotalValue'].add(series,
fill_value=0)`: the right-hand `.add` aligns on the union of the two
indices, but assigning the result back into the existing column re-aligns
it to `combined_df`'s own index — so dates already in `combined_df` are
summed (a side missing such a date contributes the fill value 0) while
dates appearing only in `series` are discarded. -/
def alignedAdd (a b : List (Nat × ℚ)) : List (Nat × ℚ) :=
  a.map (fun dv => (dv.1, dv.2 + ((List.lookup dv.1 b).getD 0)))

/-- The per-ticker loop of `get_portfolio_history`: fetch the history
(`stock.history.get_days(days)`, modelled from the spec — see
`StockPortfolio.get_portfolio_history`), skip the ticker if the fetch raised
(`except Exception: continue`) or came back empty (`if hist_data.empty:
continue`); the first contribution (`if combined_df.empty`) assigns
`Close * quantity_held` as the combined series and fixes its date index,
and every later contribution is added into that index via `alignedAdd`. -/
def historyLoop (fetch : String → Nat → Option (List (Nat × ℚ))) (days : Nat) :
    StockDict → List (Nat × ℚ) → List (Nat × ℚ)
  | [], combined => combined
  | (_, s) :: rest, combined =>
    match fetch s.history.ticker days with
    | none => historyLoop fetch days rest combined
    | some [] => historyLoop fetch days rest combined
    | some (dv :: hist) =>
      historyLoop fetch days rest
        (match combined with
         | [] => (dv :: hist).map (fun x => (x.1, x.2 * s.get_quantity_held))
         | c :: cs =>
           alignedAdd (c :: cs)
             ((dv :: hist).map (fun x => (x.1, x.2 * s.get_quantity_held))))

/-- Insertion of one dated value into a date-sorted series. -/
def insertByDate (dv : Nat × ℚ) : List (Nat × ℚ) → List (Nat × ℚ)
  | [] => [dv]
  | head :: rest =>
    if dv.1 ≤ head.1 then dv :: head :: rest else head :: insertByDate dv rest

/-- `sort_index()`: sort the combined series by date. -/
def sortByDate : List (Nat × ℚ) → List (Nat × ℚ)
  | [] => []
  | dv :: rest => insertByDate dv (sortByDate rest)

/-- `StockPortfolio.get_portfolio_history(days=365)`.  `fetch` models the
spec-level `History.get_days` (absent from `src/stock.py`; spec §4.3: an
OHLCV window for the ticker, here its dated `Close` column), with `none`
standing for a raised provider exception and `some []` for an empty result.
`sort_index()` is `sortByDate`; a series built by zero-filled aligned
addition over a fixed index carries no missing values, so the trailing
`.ffill().dropna()` is the identity and is not given a separate model. -/
def StockPortfolio.get_portfolio_history
    (fetch : String → Nat → Option (List (Nat × ℚ))) (p : StockPortfolio)
    (days : Nat := 365) : List (Nat × ℚ) :=
  match p.stocks with
  | [] => []
  | _ :: _ => sortByDate (historyLoop fetch days p.stocks [])

/-- One `{ticker, return, vol, sharpe, treynor}` record of
`get_risk_reward_data` (the Python dict key `"return"` is rendered `ret`
because `return` is reserved). -/
structure RiskRecord where
  ticker : String
  ret : ℚ
  vol : ℚ
  sharpe : ℚ
  treynor : ℚ
deriving DecidableEq

/-- Python `x or 0.0` on a number: identity except that a (float) zero is
replaced by `0.0`. -/
def pyOrZero (x : ℚ) : ℚ := if x = 0 then 0 else x

/-- The loop of `get_risk_reward_data`: a position whose `risk_metrics` is
`None` is skipped; otherwise each metric accessor (total in the
spec-modelled `RiskMetrics`, so the surrounding `try/except` has nothing to
catch) feeds a record through `or 0.0`. -/
def riskLoop : StockDict → List RiskRecord
  | [] => []
  | (t, s) :: rest =>
    match s.risk_metrics with
    | none => riskLoop rest
    | some rm =>
      { ticker := t,
        ret := pyOrZero rm.get_annualized_return,
        vol := pyOrZero rm.get_annualized_volatility,
        sharpe := pyOrZero rm.get_sharpe_ratio,
        treynor := pyOrZero rm.get_treynor_ratio } :: riskLoop rest

/-- `StockPortfolio.get_risk_reward_data`. -/
def StockPortfolio.get_risk_reward_data (p : StockPortfolio) : List RiskRecord :=
  riskLoop p.stocks

/-- One user-initiated mutation of portfolio state: the operations named by
the spec (portfolio-level add/sell, and direct increase/decrease on a held
position, `portfolio.stocks[t].increase_quantity(a)` style). -/
inductive PortfolioOp
  | addOp (ticker : String) (quantity : ℚ)
  | sellOp (ticker : String) (quantity : ℚ)
  | incOp (ticker : String) (amount : ℚ)
  | decOp (ticker : String) (amount : ℚ)

/-- Apply one operation; a raised error leaves the state exactly as the
source leaves it (for `incOp`/`decOp` on an absent ticker, a `KeyError`). -/
def applyOp (provider : String → Snapshot) (rmOf : String → Option RiskMetrics)
    (p : StockPortfolio) : PortfolioOp → StockPortfolio × Option PyErr
  | .addOp t q => p.add_stock provider rmOf t q
  | .sellOp t q => p.sell_stock t q
  | .incOp t a =>
    match lookupTicker p.stocks t with
    | none => (p, some .keyError)
    | some s =>
      match s.increase_quantity a with
      | (s2, none) => ({ p with stocks := updateTicker p.stocks t s2 }, none)
      | (_, some e) => (p, some e)
  | .decOp t a =>
    match lookupTicker p.stocks t with
    | none => (p, some .keyError)
    | some s =>
      match s.decrease_quantity a with
      | (s2, none) => ({ p with stocks := updateTicker p.stocks t s2 }, none)
      | (_, some e) => (p, some e)

/-- Run a sequence of operations, keeping whatever state each one leaves. -/
def runOps (provider : String → Snapshot) (rmOf : String → Option RiskMetrics)
    (p : StockPortfolio) : List PortfolioOp → StockPortfolio
  | [] => p
  | op :: rest => runOps provider rmOf (applyOp provider rmOf p op).1 rest

/-- Every position of the portfolio holds a non-negative quantity. -/
def QtyNonneg (p : StockPortfolio) : Prop :=
  ∀ ts ∈ p.stocks, 0 ≤ (ts : String × Stock).2.quantity_held

/-- A date-indexed series is sorted (non-decreasing) in its dates. -/
def DateSorted (l : List (Nat × ℚ)) : Prop :=
  l.Pairwise (fun a b => a.1 ≤ b.1)

/-- A fully populated provider snapshot, for concrete evaluations. -/
def fullSnapshot : Snapshot where
  longName := some "Apple Inc."
  sector := some "Technology"
  industry := some "Consumer Electronics"
  phone := some "408-996-1010"
  longBusinessSummary := some "Designs consumer electronics."
  website := some "https://www.apple.com"
  fullTimeEmployees := some 150000
  companyOfficers := some []
  address1 := some "One Apple Park Way"
  city := some "Cupertino"
  state := some "CA"
  country := some "United States"
  zip := some "95014"
  trailingPE := some 30
  forwardPE := some 28
  priceToBook := some 40
  dividendYield := some (1 / 200)
  dividendRate := some 1
  beta := some (6 / 5)
  trailingEps := some 6
  targetMeanPrice := some 180
  recommendationKey := some "buy"
  currentPrice := some 150
  previousClose := some 149
  openPrice := some (299 / 2)
  dayHigh := some 151
  dayLow := some 148
  volume := some 1000000
  fiftyTwoWeekRange := some "120 - 160"
  marketCap := some 2500000000000
  totalRevenue := some 400000000000
  netIncomeToCommon := some 100000000000
  totalCash := some 60000000000
  totalDebt := some 110000000000
  freeCashflow := some 90000000000
  grossMargins := some (9 / 20)
  operatingMargins := some (3 / 10)
  returnOnEquity := some (3 / 2)
  returnOnAssets := some (1 / 4)
  debtToEquity := some 180

/-- `fullSnapshot` with the single non-price field `"phone"` removed. -/
def snapshotMissingPhone : Snapshot := { fullSnapshot with phone := none }

/-- A snapshot carrying nothing but `"currentPrice"`. -/
def snapshotPriceOnly : Snapshot := { currentPrice := some 150 }

/-- A sample `CompanyInfo`, parameterized by sector. -/
def sampleCompanyInfo (sector : String) : CompanyInfo where
  name := "Test Co"
  sector := sector
  industry := "Testing"
  phone := "000"
  summary := "A test company."
  website := "https://example.com"
  employees := 10
  executive_board := ⟨[]⟩
  address := { line1 := "1 Test St", city := "Testville", state := "TS",
               country := "Testland", zip := "00000" }

/-- A concrete `Stock` with the given ticker, sector, price and quantity. -/
def sampleStock (ticker sector : String) (price qty : ℚ) : Stock where
  ticker_symbol := ticker
  company_info := sampleCompanyInfo sector
  valuation := { pe := 10, forward_pe := 9, pb_ratio := 2, dividend_yield := 1 / 100,
                 dividend_rate := 1, beta := 1, eps := 5, target_mean_price := 12,
                 recommendation := "hold" }
  market_data := { current_price := price, previous_close := price, open_price := price,
                   day_high := price, day_low := price, volume := 1000,
                   fifty_two_week_range := "1 - 2", market_cap := 1000000 }
  financials := { revenue := 1, net_income := 1, total_cash := 1, total_debt := 1,
                  free_cash_flow := 1, gross_margin := 1 / 2, operating_margin := 1 / 4,
                  return_on_equity := 1 / 5, return_on_assets := 1 / 10,
                  debt_to_equity := 1 }
  quantity_held := qty
  change := ⟨ticker, price⟩
  history := ⟨ticker⟩
  risk_metrics := none

/-- Six equal-value positions spread over six distinct sectors. -/
def sixSectorPortfolio : StockPortfolio where
  name := "Six"
  stocks := [("T1", sampleStock "T1" "S1" 1 1), ("T2", sampleStock "T2" "S2" 1 1),
             ("T3", sampleStock "T3" "S3" 1 1), ("T4", sampleStock "T4" "S4" 1 1),
             ("T5", sampleStock "T5" "S5" 1 1), ("T6", sampleStock "T6" "S6" 1 1)]

/-- A history provider knowing only the ticker `"G1"`. -/
def c1Fetch : String → Nat → Option (List (Nat × ℚ)) :=
  fun t _ => if t = "G1" then some [(1, 10), (2, 11)] else none

/-- The good position of the C1 witness. -/
def goodStock : Stock := sampleStock "G1" "Technology" 10 2

/-- The bad position of the C1 witness (its history fetch raises). -/
def badStock : Stock := sampleStock "B1" "Health" 5 1

/-- Python `x or 0.0` is the identity on rationals. -/
theorem pyOrZero_eq (x : ℚ) : pyOrZero x = x := by
  unfold pyOrZero; split <;> simp_all

/-- `get_portfolio_value` is the plain value sum (the empty-dict guard
returns the sum of the empty list anyway). -/
theorem gpv_eq (p : StockPortfolio) : p.get_portfolio_value = sumValues p.stocks := by
  obtain ⟨n, l⟩ := p
  cases l <;> rfl

/-- `get_portfolio_history` is the sorted accumulated series (the empty-dict
guard returns the sort of the empty accumulation anyway). -/
theorem gph_eq (fetch : String → Nat → Option (List (Nat × ℚ)))
    (days : Nat) (p : StockPortfolio) :
    p.get_portfolio_history fetch days = sortByDate (historyLoop fetch days p.stocks []) := by
  obtain ⟨n, l⟩ := p
  cases l <;> rfl

/-- C2: `getRiskRewardData` is a total function of the portfolio — no
failure path exists: every position whose risk metrics are unavailable
(`risk_metrics = none`) is silently omitted, and every position with
available metrics contributes exactly one
`{ticker, return, vol, sharpe, treynor}` record, in portfolio order. -/
theorem c2_risk_reward_total (p : StockPortfolio) :
    p.get_risk_reward_data =
      p.stocks.filterMap (fun ts => ts.2.risk_metrics.map (fun rm =>
        { ticker := ts.1, ret := rm.get_annualized_return,
          vol := rm.get_annualized_volatility, sharpe := rm.get_sharpe_ratio,
          treynor := rm.get_treynor_ratio })) := by
  show riskLoop p.stocks = _
  induction p.stocks with
  | nil => rfl
  | cons head rest ih =>
    obtain ⟨t, s⟩ := head
    cases h : s.risk_metrics <;>
      simp [riskLoop, h, ih, List.filterMap_cons, pyOrZero_eq]

/-- C3 counterexample: on an empty fetched history, `calculate_change`
raises (an `IndexError` from `.iloc[0]`, modelled `none`) instead of
returning the claimed `(0.0, 0.0)`. -/
theorem c3_counterexample :
    Change.calculate_change ⟨"AAPL", 100⟩ [] = none ∧
      Change.calculate_change ⟨"AAPL", 100⟩ [] ≠ some (0, PyFloat.fin 0) := by
  refine ⟨rfl, ?_⟩
  intro h
  simp [Change.calculate_change] at h

/-- C3 amended: `calculate_change` raises (an `IndexError` from `.iloc[0]`,
instead of returning `(0.0, 0.0)`) only when the fetched history is empty;
on a non-empty history it returns the dollar and percent deltas, each
rounded to 2 decimals, baselined at the first close of the fetched window;
a zero baseline neither raises nor returns `(0.0, 0.0)` — numpy float
division makes the percent `inf`, `-inf` or `nan` by the dollar delta's
sign; and a history shorter than the requested window is not
special-cased. -/
theorem c3_calculate_change_amended (c : Change) (hist : List ℚ) :
    (hist = [] → c.calculate_change hist = none) ∧
    (∀ p rest, hist = p :: rest → p ≠ 0 →
      c.calculate_change hist =
        some (round2 (c.current_price - p),
              PyFloat.fin (round2 (round2 (c.current_price - p) / p * 100)))) ∧
    (∀ p rest, hist = p :: rest → p = 0 →
      c.calculate_change hist =
        some (round2 (c.current_price - p),
          if 0 < round2 (c.current_price - p) then PyFloat.inf
          else if round2 (c.current_price - p) < 0 then PyFloat.ninf
          else PyFloat.nan)) := by
  refine ⟨?_, ?_, ?_⟩
  · rintro rfl; rfl
  · rintro p rest rfl hp
    simp [Change.calculate_change, pyDiv, pyMul100, pyRound2, hp]
  · rintro p rest rfl rfl
    simp only [Change.calculate_change, pyDiv, if_pos rfl, sub_zero]
    by_cases h1 : 0 < round2 c.current_price
    · simp [h1, pyMul100, pyRound2]
    · by_cases h2 : round2 c.current_price < 0
      · simp [h1, h2, pyMul100, pyRound2]
      · simp [h1, h2, pyMul100, pyRound2]

/-- C3 amended, witness: price 100 against a window whose first close is 80
gives a rounded dollar delta of 20 and a finite percent delta of 25. -/
theorem c3_calculate_change_amended_witness :
    Change.calculate_change ⟨"AAPL", 100⟩ [80] =
      some (round2 ((100 : ℚ) - 80),
            PyFloat.fin (round2 (round2 ((100 : ℚ) - 80) / 80 * 100))) :=
  (c3_calculate_change_amended ⟨"AAPL", 100⟩ [80]).2.1 80 [] rfl (by norm_num)

/-- C4: evaluation at the failing inputs.  A snapshot complete except for
the single non-price field `"phone"` already makes `Stock` construction fail
with a `KeyError`, and so does a snapshot carrying only `"currentPrice"`:
`src/stock.py` indexes every attribute field strictly (no per-field
defaulting) and reads only `"currentPrice"` (no
regular-market-price/NAV-price fallback chain), contradicting the claimed
behaviour, the test docstring "metrics default to N/A or 0 rather than
crashing if API is patchy", and `add_stock`'s comment that a bad snapshot
raises `ValueError`. -/
theorem c4_missing_field_fatal :
    Stock.init snapshotMissingPhone none "AAPL" 1 = .error .keyError ∧
      Stock.init snapshotPriceOnly none "AAPL" 1 = .error .keyError := by
  constructor <;> rfl

/-- C5 counterexample: `Stock.__init__` stores a negative starting quantity
unvalidated, so a freshly constructed position already violates
non-negativity. -/
theorem c5_counterexample :
    (Stock.init fullSnapshot none "AAPL" (-5)).toOption.map Stock.quantity_held
        = some (-5) ∧
      ((StockPortfolio.add_stock (fun _ => fullSnapshot) (fun _ => none)
          ⟨"P", []⟩ "AAPL" (-5)).1.stocks.map
        (fun ts => ts.2.quantity_held)) = [-5] ∧
      ((-5 : ℚ) < 0) := by
  refine ⟨rfl, rfl, by norm_num⟩

/-- C6 counterexample: when the provider fetch raises, `refresh_data` lets
the failure escape to the caller (the claim says it is never propagated as a
crash). -/
theorem c6_counterexample :
    (Stock.refresh_data none (sampleStock "TST" "Technology" 150 10)).2 =
        some PyErr.connectionError ∧
      (Stock.refresh_data none (sampleStock "TST" "Technology" 150 10)).2 ≠ none := by
  refine ⟨rfl, by simp [Stock.refresh_data]⟩

/-- C6 amended: when the provider fetch itself fails, the previously held
snapshot is retained unchanged and the failure propagates to the caller as
an uncaught exception — it is not silently discarded, but neither is it
caught and converted into a logged non-crash report. -/
theorem c6_refresh_fetch_failure (s : Stock) :
    Stock.refresh_data none s = (s, some PyErr.connectionError) := rfl

/-- C10: `sellStock` is atomic — whenever it reports a failure (absent
ticker, non-positive amount, or overdraft), the returned portfolio is
exactly the one passed in. -/
theorem c10_sell_stock_atomic (p : StockPortfolio) (ticker : String) (q : ℚ)
    (e : PyErr) (h : (p.sell_stock ticker q).2 = some e) :
    (p.sell_stock ticker q).1 = p := by
  unfold StockPortfolio.sell_stock at h ⊢
  cases hl : lookupTicker p.stocks (pyUpper ticker) with
  | none => simp [hl]
  | some s =>
    simp only [hl] at h ⊢
    unfold Stock.decrease_quantity at h ⊢
    by_cases h1 : s.quantity_held < q
    · simp [h1]
    · by_cases h2 : q ≤ 0
      · simp [h1, h2]
      · simp [h1, h2] at h

/-- C10 witness: selling from an empty portfolio fails and leaves it
untouched. -/
theorem c10_sell_stock_atomic_witness :
    (StockPortfolio.sell_stock ⟨"My Portfolio", []⟩ "TST" 1).1 =
      ⟨"My Portfolio", []⟩ :=
  c10_sell_stock_atomic ⟨"My Portfolio", []⟩ "TST" 1 PyErr.keyError rfl

/-- A position whose history fetch raised or came back empty contributes
nothing to the accumulation loop, wherever it sits in the portfolio. -/
theorem historyLoop_skip_bad (fetch : String → Nat → Option (List (Nat × ℚ)))
    (days : Nat) (pre post : StockDict) (t : String) (bad : Stock)
    (acc : List (Nat × ℚ))
    (hbad : fetch bad.history.ticker days = none ∨
      fetch bad.history.ticker days = some []) :
    historyLoop fetch days (pre ++ (t, bad) :: post) acc =
      historyLoop fetch days (pre ++ post) acc := by
  induction pre generalizing acc with
  | nil =>
    rcases hbad with h | h <;> simp [historyLoop, h]
  | cons hd tl ih =>
    obtain ⟨k, s⟩ := hd
    simp only [List.cons_append, historyLoop]
    cases hf : fetch s.history.ticker days with
    | none => exact ih _
    | some lst =>
      cases lst with
      | nil => exact ih _
      | cons dv rest => exact ih _

/-- Membership through `insertByDate`. -/
theorem mem_insertByDate (dv x : Nat × ℚ) (l : List (Nat × ℚ))
    (h : x ∈ insertByDate dv l) : x = dv ∨ x ∈ l := by
  induction l with
  | nil => simpa [insertByDate] using h
  | cons hd tl ih =>
    unfold insertByDate at h
    by_cases hle : dv.1 ≤ hd.1
    · simp only [if_pos hle, List.mem_cons] at h
      rcases h with h | h | h
      · exact Or.inl h
      · exact Or.inr (by simp [h])
      · exact Or.inr (by simp [h])
    · simp only [if_neg hle, List.mem_cons] at h
      rcases h with h | h
      · exact Or.inr (by simp [h])
      · rcases ih h with h1 | h1
        · exact Or.inl h1
        · exact Or.inr (by simp [h1])

/-- Inserting into a date-sorted series keeps it date-sorted. -/
theorem insertByDate_sorted (dv : Nat × ℚ) (l : List (Nat × ℚ))
    (h : DateSorted l) : DateSorted (insertByDate dv l) := by
  induction l with
  | nil => simp [insertByDate, DateSorted]
  | cons hd tl ih =>
    rw [DateSorted, List.pairwise_cons] at h
    obtain ⟨hhd, htl⟩ := h
    unfold insertByDate
    by_cases hle : dv.1 ≤ hd.1
    · simp only [if_pos hle]
      rw [DateSorted, List.pairwise_cons]
      refine ⟨?_, ?_⟩
      · intro b hb
        rcases List.mem_cons.mp hb with rfl | hb
        · exact hle
        · exact le_trans hle (hhd b hb)
      · rw [List.pairwise_cons]
        exact ⟨hhd, htl⟩
    · simp only [if_neg hle]
      rw [DateSorted, List.pairwise_cons]
      refine ⟨?_, ih htl⟩
      intro b hb
      rcases mem_insertByDate dv b tl hb with rfl | hb
      · omega
      · exact hhd b hb

/-- `sortByDate` produces a date-sorted series. -/
theorem sortByDate_sorted (l : List (Nat × ℚ)) : DateSorted (sortByDate l) := by
  induction l with
  | nil => simp [sortByDate, DateSorted]
  | cons hd tl ih => exact insertByDate_sorted hd (sortByDate tl) ih

/-- C1: a position whose history fetch raises or returns an empty series
never erases the remaining positions' merged series — `getPortfolioHistory`
of a portfolio containing such a position equals that of the same portfolio
without it; an empty portfolio yields an empty series rather than failing;
and the returned merged series is date-sorted. -/
theorem c1_bad_ticker_never_erases
    (fetch : String → Nat → Option (List (Nat × ℚ))) (days : Nat)
    (name : String) (pre post : StockDict) (t : String) (bad : Stock)
    (hbad : fetch bad.history.ticker days = none ∨
      fetch bad.history.ticker days = some []) :
    StockPortfolio.get_portfolio_history fetch ⟨name, pre ++ (t, bad) :: post⟩ days
        = StockPortfolio.get_portfolio_history fetch ⟨name, pre ++ post⟩ days ∧
      StockPortfolio.get_portfolio_history fetch ⟨name, []⟩ days = [] ∧
      DateSorted (StockPortfolio.get_portfolio_history fetch
        ⟨name, pre ++ (t, bad) :: post⟩ days) := by
  refine ⟨?_, rfl, ?_⟩
  · rw [gph_eq, gph_eq, historyLoop_skip_bad fetch days pre post t bad [] hbad]
  · rw [gph_eq]
    exact sortByDate_sorted _

/-- C1 witness: a two-position portfolio whose second position's fetch
raises produces the same series as the portfolio holding only the first
position, and that series is date-sorted. -/
theorem c1_bad_ticker_never_erases_witness :
    StockPortfolio.get_portfolio_history c1Fetch
        ⟨"P", [("G1", goodStock)] ++ ("B1", badStock) :: []⟩ 365
        = StockPortfolio.get_portfolio_history c1Fetch
            ⟨"P", [("G1", goodStock)] ++ []⟩ 365 ∧
      StockPortfolio.get_portfolio_history c1Fetch ⟨"P", []⟩ 365 = [] ∧
      DateSorted (StockPortfolio.get_portfolio_history c1Fetch
        ⟨"P", [("G1", goodStock)] ++ ("B1", badStock) :: []⟩ 365) :=
  c1_bad_ticker_never_erases c1Fetch 365 "P" [("G1", goodStock)] [] "B1" badStock
    (Or.inl rfl)



/-- Looking up a key after replacing its stored `Stock` yields the
replacement (given the key was present). -/
theorem lookup_updateTicker {l : StockDict} {t : String} {s : Stock}
    (v : Stock) (h : lookupTicker l t = some s) :
    lookupTicker (updateTicker l t v) t = some v := by
  induction l with
  | nil => simp [lookupTicker] at h
  | cons hd tl ih =>
    obtain ⟨k, w⟩ := hd
    by_cases hk : k = t
    · simp [updateTicker, lookupTicker, hk]
    · simp only [lookupTicker, if_neg hk] at h
      simp only [updateTicker, if_neg hk, lookupTicker]
      exact ih h

/-- Replacing a present key's `Stock` shifts the value sum by the value
difference at the first occurrence. -/
theorem sumValues_updateTicker {l : StockDict} {t : String} {s : Stock}
    (v : Stock) (h : lookupTicker l t = some s) :
    sumValues (updateTicker l t v) =
      sumValues l - s.get_total_value + v.get_total_value := by
  induction l with
  | nil => simp [lookupTicker] at h
  | cons hd tl ih =>
    obtain ⟨k, w⟩ := hd
    by_cases hk : k = t
    · simp only [lookupTicker, if_pos hk] at h
      obtain rfl : w = s := Option.some.inj h
      simp only [updateTicker, if_pos hk, sumValues]
      ring
    · simp only [lookupTicker, if_neg hk] at h
      simp only [updateTicker, if_neg hk, sumValues]
      rw [ih h]
      ring

/-- The value sum over an appended dict splits. -/
theorem sumValues_append (l1 l2 : StockDict) :
    sumValues (l1 ++ l2) = sumValues l1 + sumValues l2 := by
  induction l1 with
  | nil => simp [sumValues]
  | cons hd tl ih =>
    obtain ⟨k, w⟩ := hd
    simp only [List.cons_append, sumValues, List.append_eq]
    rw [ih]
    ring

/-- A successfully constructed `Stock` holds exactly the quantity passed to
the constructor (the constructor does not validate it). -/
theorem stock_init_quantity (snap : Snapshot) (rm : Option RiskMetrics)
    (t : String) (q : ℚ) (s : Stock) (h : Stock.init snap rm t q = .ok s) :
    s.quantity_held = q := by
  unfold Stock.init at h
  cases hc : CompanyInfo.init snap with
  | error e => rw [hc] at h; exact Except.noConfusion h
  | ok ci =>
    rw [hc] at h
    cases hv : ValuationMetrics.init snap with
    | error e => rw [hv] at h; exact Except.noConfusion h
    | ok vm =>
      rw [hv] at h
      cases hm : MarketData.init snap with
      | error e => rw [hm] at h; exact Except.noConfusion h
      | ok md =>
        rw [hm] at h
        cases hf : Financials.init snap with
        | error e => rw [hf] at h; exact Except.noConfusion h
        | ok fin =>
          rw [hf] at h
          cases h
          rfl

/-- C8: `sellStock` fails with the not-found error exactly when the ticker
is absent; on a present ticker it propagates the invalid-amount error for
non-positive or overdraft amounts; and on a valid amount it decreases the
position's quantity in place — in particular, selling down to exactly 0
leaves the position present in the dict with quantity 0, not removed. -/
theorem c8_sell_stock_spec (p : StockPortfolio) (ticker : String) (q : ℚ) :
    (lookupTicker p.stocks (pyUpper ticker) = none →
        p.sell_stock ticker q = (p, some PyErr.keyError)) ∧
    (∀ s, lookupTicker p.stocks (pyUpper ticker) = some s →
        ((q ≤ 0 ∨ s.quantity_held < q) →
            p.sell_stock ticker q = (p, some PyErr.valueError)) ∧
        (0 < q → q ≤ s.quantity_held →
            p.sell_stock ticker q =
              ({ p with
                  stocks := updateTicker p.stocks (pyUpper ticker)
                    { s with quantity_held := s.quantity_held - q } }, none) ∧
            lookupTicker (p.sell_stock ticker q).1.stocks (pyUpper ticker) =
              some { s with quantity_held := s.quantity_held - q })) := by
  refine ⟨?_, ?_⟩
  · intro hl
    unfold StockPortfolio.sell_stock
    simp [hl]
  · intro s hl
    refine ⟨?_, ?_⟩
    · intro hbad
      unfold StockPortfolio.sell_stock
      rcases hbad with hbad | hbad
      · rcases lt_or_le s.quantity_held q with hlt | hle
        · simp [hl, Stock.decrease_quantity, hlt]
        · simp [hl, Stock.decrease_quantity, not_lt.mpr hle, hbad]
      · simp [hl, Stock.decrease_quantity, hbad]
    · intro hq hle
      have heq : p.sell_stock ticker q =
          ({ p with
              stocks := updateTicker p.stocks (pyUpper ticker)
                { s with quantity_held := s.quantity_held - q } }, none) := by
        unfold StockPortfolio.sell_stock
        simp [hl, Stock.decrease_quantity, not_lt.mpr hle, not_le.mpr hq]
      refine ⟨heq, ?_⟩
      rw [heq]
      exact lookup_updateTicker _ hl

/-- C8 witness: selling a position's full quantity of 5 leaves it present
with quantity 0. -/
theorem c8_sell_stock_spec_witness :
    StockPortfolio.sell_stock
        ⟨"P", [("TST", sampleStock "TST" "Technology" 150 5)]⟩ "TST" 5 =
      ({ name := "P",
         stocks := updateTicker [("TST", sampleStock "TST" "Technology" 150 5)]
           (pyUpper "TST")
           { sampleStock "TST" "Technology" 150 5 with
               quantity_held := (5 : ℚ) - 5 } }, none) ∧
      lookupTicker (StockPortfolio.sell_stock
          ⟨"P", [("TST", sampleStock "TST" "Technology" 150 5)]⟩ "TST" 5).1.stocks
          (pyUpper "TST") =
        some { sampleStock "TST" "Technology" 150 5 with
                 quantity_held := (5 : ℚ) - 5 } :=
  ((c8_sell_stock_spec ⟨"P", [("TST", sampleStock "TST" "Technology" 150 5)]⟩
      "TST" 5).2 (sampleStock "TST" "Technology" 150 5) rfl).2
    (by norm_num) (by norm_num [sampleStock])

/-- C9: a successful `addStock(T, q)` with `q > 0` raises no error and
increases `getPortfolioValue()` by exactly the position price of `T` times
`q` — the stored price of the existing position when `T` was present, or the
snapshot-selected price of the newly constructed position otherwise. -/
theorem c9_add_stock_value (provider : String → Snapshot)
    (rmOf : String → Option RiskMetrics) (p : StockPortfolio)
    (ticker : String) (q : ℚ) (hq : 0 < q) :
    (∀ s, lookupTicker p.stocks (pyUpper ticker) = some s →
        (p.add_stock provider rmOf ticker q).2 = none ∧
        (p.add_stock provider rmOf ticker q).1.get_portfolio_value =
          p.get_portfolio_value + s.market_data.current_price * q) ∧
    (∀ s, lookupTicker p.stocks (pyUpper ticker) = none →
        Stock.init (provider (pyUpper ticker)) (rmOf (pyUpper ticker))
            (pyUpper ticker) q = .ok s →
        (p.add_stock provider rmOf ticker q).2 = none ∧
        (p.add_stock provider rmOf ticker q).1.get_portfolio_value =
          p.get_portfolio_value + s.market_data.current_price * q) := by
  constructor
  · intro s hl
    have heq : p.add_stock provider rmOf ticker q =
        ({ p with
            stocks := updateTicker p.stocks (pyUpper ticker)
              { s with quantity_held := s.quantity_held + q } }, none) := by
      unfold StockPortfolio.add_stock
      simp [hl, Stock.increase_quantity, not_le.mpr hq]
    rw [heq]
    refine ⟨rfl, ?_⟩
    rw [gpv_eq, gpv_eq]
    simp only
    rw [sumValues_updateTicker { s with quantity_held := s.quantity_held + q } hl]
    simp [Stock.get_total_value]
    ring
  · intro s hl hinit
    have heq : p.add_stock provider rmOf ticker q =
        ({ p with stocks := p.stocks ++ [(pyUpper ticker, s)] }, none) := by
      unfold StockPortfolio.add_stock
      simp [hl, hinit]
    rw [heq]
    refine ⟨rfl, ?_⟩
    rw [gpv_eq, gpv_eq]
    simp only
    rw [sumValues_append]
    simp [sumValues, Stock.get_total_value,
      stock_init_quantity (provider (pyUpper ticker)) (rmOf (pyUpper ticker))
        (pyUpper ticker) q s hinit]

/-- C9 witness: adding 2 more shares to an existing position priced 150
raises no error and increases the portfolio value by exactly 150 × 2. -/
theorem c9_add_stock_value_witness :
    (StockPortfolio.add_stock (fun _ => fullSnapshot) (fun _ => none)
        ⟨"P", [("TST", sampleStock "TST" "Technology" 150 10)]⟩ "TST" 2).2 = none ∧
      (StockPortfolio.add_stock (fun _ => fullSnapshot) (fun _ => none)
          ⟨"P", [("TST", sampleStock "TST" "Technology" 150 10)]⟩ "TST" 2).1.get_portfolio_value =
        StockPortfolio.get_portfolio_value
            ⟨"P", [("TST", sampleStock "TST" "Technology" 150 10)]⟩ +
          (sampleStock "TST" "Technology" 150 10).market_data.current_price * 2 :=
  (c9_add_stock_value (fun _ => fullSnapshot) (fun _ => none)
      ⟨"P", [("TST", sampleStock "TST" "Technology" 150 10)]⟩ "TST" 2
      (by norm_num)).1 (sampleStock "TST" "Technology" 150 10) rfl

/-- A `Stock` found in an all-non-negative dict holds a non-negative
quantity. -/
theorem lookup_qty_nonneg {l : StockDict} {t : String} {s : Stock}
    (h0 : ∀ ts ∈ l, 0 ≤ (ts : String × Stock).2.quantity_held)
    (h : lookupTicker l t = some s) : 0 ≤ s.quantity_held := by
  induction l with
  | nil => simp [lookupTicker] at h
  | cons hd tl ih =>
    obtain ⟨k, w⟩ := hd
    by_cases hk : k = t
    · simp only [lookupTicker, if_pos hk] at h
      obtain rfl : w = s := Option.some.inj h
      exact h0 (k, w) (List.mem_cons_self _ _)
    · simp only [lookupTicker, if_neg hk] at h
      exact ih (fun x hx => h0 x (List.mem_cons_of_mem _ hx)) h

/-- Replacing an entry by a non-negative `Stock` keeps the dict
all-non-negative. -/
theorem updateTicker_nonneg {l : StockDict} {t : String} {v : Stock}
    (h0 : ∀ ts ∈ l, 0 ≤ (ts : String × Stock).2.quantity_held)
    (hv : 0 ≤ v.quantity_held) :
    ∀ ts ∈ updateTicker l t v, 0 ≤ (ts : String × Stock).2.quantity_held := by
  induction l with
  | nil => simp [updateTicker]
  | cons hd tl ih =>
    obtain ⟨k, w⟩ := hd
    by_cases hk : k = t
    · simp only [updateTicker, if_pos hk]
      intro ts hts
      rcases List.mem_cons.mp hts with rfl | hts
      · exact hv
      · exact h0 ts (List.mem_cons_of_mem _ hts)
    · simp only [updateTicker, if_neg hk]
      intro ts hts
      rcases List.mem_cons.mp hts with rfl | hts
      · exact h0 (k, w) (List.mem_cons_self _ _)
      · exact ih (fun x hx => h0 x (List.mem_cons_of_mem _ hx)) ts hts

/-- One operation preserves non-negativity of every held quantity, provided
any quantity handed to `Stock` construction (an `addOp` on a fresh ticker)
is non-negative. -/
theorem applyOp_preserves (provider : String → Snapshot)
    (rmOf : String → Option RiskMetrics) (p : StockPortfolio) (op : PortfolioOp)
    (h0 : QtyNonneg p) (hadd : ∀ t q, op = PortfolioOp.addOp t q → 0 ≤ q) :
    QtyNonneg (applyOp provider rmOf p op).1 := by
  cases op with
  | addOp t q =>
    have hq : 0 ≤ q := hadd t q rfl
    show QtyNonneg (p.add_stock provider rmOf t q).1
    cases hl : lookupTicker p.stocks (pyUpper t) with
    | some s =>
      by_cases hle : q ≤ 0
      · have heq : p.add_stock provider rmOf t q = (p, some PyErr.valueError) := by
          unfold StockPortfolio.add_stock
          simp [hl, Stock.increase_quantity, hle]
        rw [heq]
        exact h0
      · have heq : p.add_stock provider rmOf t q =
            ({ p with
                stocks := updateTicker p.stocks (pyUpper t)
                  { s with quantity_held := s.quantity_held + q } }, none) := by
          unfold StockPortfolio.add_stock
          simp [hl, Stock.increase_quantity, hle]
        rw [heq]
        have hs : 0 ≤ s.quantity_held := lookup_qty_nonneg h0 hl
        exact updateTicker_nonneg h0 (by simp; linarith)
    | none =>
      cases hi : Stock.init (provider (pyUpper t)) (rmOf (pyUpper t)) (pyUpper t) q with
      | error e =>
        have heq : p.add_stock provider rmOf t q = (p, some e) := by
          unfold StockPortfolio.add_stock
          simp [hl, hi]
        rw [heq]
        exact h0
      | ok s =>
        have heq : p.add_stock provider rmOf t q =
            ({ p with stocks := p.stocks ++ [(pyUpper t, s)] }, none) := by
          unfold StockPortfolio.add_stock
          simp [hl, hi]
        rw [heq]
        intro ts hts
        rcases List.mem_append.mp hts with hts | hts
        · exact h0 ts hts
        · rcases List.mem_singleton.mp hts with rfl
          simpa [stock_init_quantity _ _ _ _ _ hi] using hq
  | sellOp t q =>
    show QtyNonneg (p.sell_stock t q).1
    cases hl : lookupTicker p.stocks (pyUpper t) with
    | none =>
      have heq : p.sell_stock t q = (p, some PyErr.keyError) := by
        unfold StockPortfolio.sell_stock
        simp [hl]
      rw [heq]
      exact h0
    | some s =>
      by_cases h1 : s.quantity_held < q
      · have heq : p.sell_stock t q = (p, some PyErr.valueError) := by
          unfold StockPortfolio.sell_stock
          simp [hl, Stock.decrease_quantity, h1]
        rw [heq]
        exact h0
      · by_cases h2 : q ≤ 0
        · have heq : p.sell_stock t q = (p, some PyErr.valueError) := by
            unfold StockPortfolio.sell_stock
            simp [hl, Stock.decrease_quantity, h1, h2]
          rw [heq]
          exact h0
        · have heq : p.sell_stock t q =
              ({ p with
                  stocks := updateTicker p.stocks (pyUpper t)
                    { s with quantity_held := s.quantity_held - q } }, none) := by
            unfold StockPortfolio.sell_stock
            simp [hl, Stock.decrease_quantity, h1, h2]
          rw [heq]
          exact updateTicker_nonneg h0 (by simp; linarith [not_lt.mp h1])
  | incOp t a =>
    cases hl : lookupTicker p.stocks t with
    | none =>
      have heq : (applyOp provider rmOf p (PortfolioOp.incOp t a)).1 = p := by
        unfold applyOp
        simp [hl]
      rw [heq]
      exact h0
    | some s =>
      by_cases hle : a ≤ 0
      · have heq : (applyOp provider rmOf p (PortfolioOp.incOp t a)).1 = p := by
          unfold applyOp
          simp [hl, Stock.increase_quantity, hle]
        rw [heq]
        exact h0
      · have heq : (applyOp provider rmOf p (PortfolioOp.incOp t a)).1 =
            { p with
                stocks := updateTicker p.stocks t
                  { s with quantity_held := s.quantity_held + a } } := by
          unfold applyOp
          simp [hl, Stock.increase_quantity, hle]
        rw [heq]
        have hs : 0 ≤ s.quantity_held := lookup_qty_nonneg h0 hl
        exact updateTicker_nonneg h0 (by simp; linarith)
  | decOp t a =>
    cases hl : lookupTicker p.stocks t with
    | none =>
      have heq : (applyOp provider rmOf p (PortfolioOp.decOp t a)).1 = p := by
        unfold applyOp
        simp [hl]
      rw [heq]
      exact h0
    | some s =>
      by_cases h1 : s.quantity_held < a
      · have heq : (applyOp provider rmOf p (PortfolioOp.decOp t a)).1 = p := by
          unfold applyOp
          simp [hl, Stock.decrease_quantity, h1]
        rw [heq]
        exact h0
      · by_cases h2 : a ≤ 0
        · have heq : (applyOp provider rmOf p (PortfolioOp.decOp t a)).1 = p := by
            unfold applyOp
            simp [hl, Stock.decrease_quantity, h1, h2]
          rw [heq]
          exact h0
        · have heq : (applyOp provider rmOf p (PortfolioOp.decOp t a)).1 =
              { p with
                  stocks := updateTicker p.stocks t
                    { s with quantity_held := s.quantity_held - a } } := by
            unfold applyOp
            simp [hl, Stock.decrease_quantity, h1, h2]
          rw [heq]
          exact updateTicker_nonneg h0 (by simp; linarith [not_lt.mp h1])

/-- C5 amended: provided every quantity handed to `Stock` construction is
non-negative (construction itself does not validate it — see the
counterexample), a portfolio whose positions all hold non-negative
quantities keeps that invariant across every sequence of `addStock`,
`sellStock`, `increaseQuantity` and `decreaseQuantity` operations, since the
validated increase/decrease paths never drive a quantity negative. -/
theorem c5_quantity_invariant_amended (provider : String → Snapshot)
    (rmOf : String → Option RiskMetrics) (p : StockPortfolio)
    (ops : List PortfolioOp) (h0 : QtyNonneg p)
    (hadd : ∀ op ∈ ops, ∀ t q, op = PortfolioOp.addOp t q → 0 ≤ q) :
    QtyNonneg (runOps provider rmOf p ops) := by
  induction ops generalizing p with
  | nil => exact h0
  | cons op rest ih =>
    exact ih _
      (applyOp_preserves provider rmOf p op h0 (hadd op (List.mem_cons_self _ _)))
      (fun o ho => hadd o (List.mem_cons_of_mem _ ho))

/-- C5 amended, witness: buying 5 shares into an empty portfolio and selling
them all leaves every quantity non-negative. -/
theorem c5_quantity_invariant_amended_witness :
    QtyNonneg (runOps (fun _ => fullSnapshot) (fun _ => none) ⟨"P", []⟩
      [PortfolioOp.addOp "AAPL" 5, PortfolioOp.sellOp "AAPL" 5]) :=
  c5_quantity_invariant_amended (fun _ => fullSnapshot) (fun _ => none) ⟨"P", []⟩
    [PortfolioOp.addOp "AAPL" 5, PortfolioOp.sellOp "AAPL" 5]
    (by intro ts hts; simp at hts)
    (by
      intro op hop t q heq
      subst heq
      simp only [List.mem_cons, List.mem_singleton] at hop
      rcases hop with hop | hop | hop
      · obtain ⟨-, rfl⟩ := PortfolioOp.addOp.inj hop
        norm_num
      · exact absurd hop (by simp)
      · exact absurd hop (by simp))

/-- Rounding to 2 decimals moves a rational by at most half a cent. -/
theorem abs_round2_sub (x : ℚ) : |round2 x - x| ≤ 1 / 200 := by
  unfold round2
  have h := abs_sub_round (100 * x)
  rw [abs_sub_comm] at h
  have h100 : ((round (100 * x) : ℤ) : ℚ) / 100 - x =
      (((round (100 * x) : ℤ) : ℚ) - 100 * x) / 100 := by ring
  rw [h100, abs_div, abs_of_pos (by norm_num : (0 : ℚ) < 100)]
  calc |((round (100 * x) : ℤ) : ℚ) - 100 * x| / 100
      ≤ (1 / 2) / 100 := (div_le_div_iff_of_pos_right (by norm_num)).mpr h
    _ = 1 / 200 := by norm_num

/-- Rounding each entry of a list moves its sum by at most half a cent per
entry. -/
theorem sum_round2_err (l : List ℚ) :
    |(l.map round2).sum - l.sum| ≤ (l.length : ℚ) * (1 / 200) := by
  induction l with
  | nil => simp
  | cons x tl ih =>
    simp only [List.map_cons, List.sum_cons, List.length_cons]
    have h2 : round2 x + (List.map round2 tl).sum - (x + tl.sum) =
        (round2 x - x) + ((List.map round2 tl).sum - tl.sum) := by ring
    rw [h2]
    calc |(round2 x - x) + ((List.map round2 tl).sum - tl.sum)|
        ≤ |round2 x - x| + |(List.map round2 tl).sum - tl.sum| := abs_add _ _
      _ ≤ 1 / 200 + (tl.length : ℚ) * (1 / 200) :=
          add_le_add (abs_round2_sub x) ih
      _ = ((tl.length : ℕ) + 1 : ℚ) * (1 / 200) := by ring
      _ = (((tl.length + 1 : ℕ)) : ℚ) * (1 / 200) := by push_cast; ring

/-- `d[k] = d.get(k, 0) + v` increases the dict's value sum by exactly `v`. -/
theorem sumSnd_dictAddValue (acc : List (String × ℚ)) (k : String) (v : ℚ) :
    ((dictAddValue acc k v).map Prod.snd).sum = (acc.map Prod.snd).sum + v := by
  induction acc with
  | nil => simp [dictAddValue]
  | cons hd tl ih =>
    obtain ⟨k0, v0⟩ := hd
    by_cases hk : k0 = k
    · simp only [dictAddValue, if_pos hk, List.map_cons, List.sum_cons]
      ring
    · simp only [dictAddValue, if_neg hk, List.map_cons, List.sum_cons, ih]
      ring

/-- The sector-bucket accumulation preserves the total value. -/
theorem sumSnd_sectorDict (l : StockDict) (acc : List (String × ℚ)) :
    ((sectorDict l acc).map Prod.snd).sum = (acc.map Prod.snd).sum + sumValues l := by
  induction l generalizing acc with
  | nil => simp [sectorDict, sumValues]
  | cons hd tl ih =>
    obtain ⟨t, s⟩ := hd
    simp only [sectorDict, sumValues]
    rw [ih, sumSnd_dictAddValue]
    ring

/-- A key of `dictAddValue acc k v` is `k` or a key of `acc`. -/
theorem keys_dictAddValue {acc : List (String × ℚ)} {k : String} {v : ℚ}
    {x : String} (h : x ∈ (dictAddValue acc k v).map Prod.fst) :
    x = k ∨ x ∈ acc.map Prod.fst := by
  induction acc with
  | nil => simpa [dictAddValue] using h
  | cons hd tl ih =>
    obtain ⟨k0, v0⟩ := hd
    by_cases hk : k0 = k
    · simp only [dictAddValue, if_pos hk, List.map_cons, List.mem_cons] at h ⊢
      tauto
    · simp only [dictAddValue, if_neg hk, List.map_cons, List.mem_cons] at h ⊢
      rcases h with h | h
      · tauto
      · rcases ih h with h1 | h1 <;> tauto

/-- A key of the sector-bucket dict is an accumulator key or some stock's
sector-or-Unknown. -/
theorem keys_sectorDict {l : StockDict} {acc : List (String × ℚ)}
    {x : String} (h : x ∈ (sectorDict l acc).map Prod.fst) :
    x ∈ acc.map Prod.fst ∨
      ∃ ts ∈ l, x = pyOrUnknown (ts : String × Stock).2.company_info.sector := by
  induction l generalizing acc with
  | nil => exact Or.inl (by simpa [sectorDict] using h)
  | cons hd tl ih =>
    obtain ⟨t, s⟩ := hd
    simp only [sectorDict] at h
    rcases ih h with h1 | h1
    · rcases keys_dictAddValue h1 with h2 | h2
      · exact Or.inr ⟨(t, s), List.mem_cons_self _ _, h2⟩
      · exact Or.inl h2
    · obtain ⟨ts, hts, hx⟩ := h1
      exact Or.inr ⟨ts, List.mem_cons_of_mem _ hts, hx⟩

/-- Setting a key to 0 keeps an all-zero dict all-zero. -/
theorem dictSet_zero_vals {acc : List (String × ℚ)} {k : String}
    (hacc : ∀ kv ∈ acc, (kv : String × ℚ).2 = 0) :
    ∀ kv ∈ dictSet acc k 0, (kv : String × ℚ).2 = 0 := by
  induction acc with
  | nil =>
    intro kv hkv
    rcases List.mem_singleton.mp hkv with rfl
    rfl
  | cons hd tl ih =>
    obtain ⟨k0, v0⟩ := hd
    by_cases hk : k0 = k
    · simp only [dictSet, if_pos hk]
      intro kv hkv
      rcases List.mem_cons.mp hkv with rfl | hkv
      · rfl
      · exact hacc kv (List.mem_cons_of_mem _ hkv)
    · simp only [dictSet, if_neg hk]
      intro kv hkv
      rcases List.mem_cons.mp hkv with rfl | hkv
      · exact hacc (k0, v0) (List.mem_cons_self _ _)
      · exact ih (fun y hy => hacc y (List.mem_cons_of_mem _ hy)) kv hkv

/-- The zero-total branch of `holding_by_sector` reports 0 in every bucket. -/
theorem zeroSectorDict_vals {l : StockDict} {acc : List (String × ℚ)}
    (hacc : ∀ kv ∈ acc, (kv : String × ℚ).2 = 0) :
    ∀ kv ∈ zeroSectorDict l acc, (kv : String × ℚ).2 = 0 := by
  induction l generalizing acc with
  | nil => simpa [zeroSectorDict] using hacc
  | cons hd tl ih =>
    obtain ⟨t, s⟩ := hd
    simp only [zeroSectorDict]
    exact ih (dictSet_zero_vals hacc)

/-- `holding_by_sector` on an empty portfolio. -/
theorem hbs_nil (n : String) : StockPortfolio.holding_by_sector ⟨n, []⟩ = [] := rfl

/-- `holding_by_sector`, zero-total branch. -/
theorem hbs_zero (p : StockPortfolio) (h0 : p.stocks ≠ [])
    (h : p.get_portfolio_value = 0) :
    p.holding_by_sector = zeroSectorDict p.stocks [] := by
  obtain ⟨n, l⟩ := p
  cases l with
  | nil => exact absurd rfl h0
  | cons hd tl =>
    show (if StockPortfolio.get_portfolio_value ⟨n, hd :: tl⟩ = 0 then
        zeroSectorDict (hd :: tl) []
      else (sectorDict (hd :: tl) []).map
        (fun kv => (kv.1,
          round2 (kv.2 / StockPortfolio.get_portfolio_value ⟨n, hd :: tl⟩ * 100)))) = _
    rw [if_pos h]

/-- `holding_by_sector`, positive-total branch. -/
theorem hbs_ne_zero (p : StockPortfolio) (h0 : p.stocks ≠ [])
    (h : p.get_portfolio_value ≠ 0) :
    p.holding_by_sector = (sectorDict p.stocks []).map
      (fun kv => (kv.1, round2 (kv.2 / p.get_portfolio_value * 100))) := by
  obtain ⟨n, l⟩ := p
  cases l with
  | nil => exact absurd rfl h0
  | cons hd tl =>
    show (if StockPortfolio.get_portfolio_value ⟨n, hd :: tl⟩ = 0 then
        zeroSectorDict (hd :: tl) []
      else (sectorDict (hd :: tl) []).map
        (fun kv => (kv.1,
          round2 (kv.2 / StockPortfolio.get_portfolio_value ⟨n, hd :: tl⟩ * 100)))) = _
    rw [if_neg h]

/-- C7 counterexample: six equal positions in six distinct sectors — each
bucket's percentage 100/6 rounds up to 16.67, so the returned percentages
sum to 100.02, outside the claimed ±0.01. -/
theorem c7_counterexample :
    ¬ |((StockPortfolio.holding_by_sector sixSectorPortfolio).map Prod.snd).sum
          - 100| ≤ 1 / 100 := by
  have htot : StockPortfolio.get_portfolio_value sixSectorPortfolio = 6 := by
    norm_num [StockPortfolio.get_portfolio_value, sixSectorPortfolio, sumValues,
      Stock.get_total_value, sampleStock]
  have hne : StockPortfolio.get_portfolio_value sixSectorPortfolio ≠ 0 := by
    rw [htot]; norm_num
  have hs : sixSectorPortfolio.stocks ≠ [] := by simp [sixSectorPortfolio]
  have hd : sectorDict sixSectorPortfolio.stocks [] =
      [("S1", 1), ("S2", 1), ("S3", 1), ("S4", 1), ("S5", 1), ("S6", 1)] := by
    simp [sixSectorPortfolio, sectorDict, dictAddValue, pyOrUnknown,
      sampleStock, sampleCompanyInfo, Stock.get_total_value]
  rw [hbs_ne_zero _ hs hne, hd, htot]
  intro hcontra
  norm_num [round2, round_eq] at hcontra
  rw [abs_of_pos (by norm_num)] at hcontra
  norm_num at hcontra

/-- Scaling every value of a dict scales its value sum. -/
theorem sumSnd_map_scale (d : List (String × ℚ)) (c : ℚ) :
    (d.map (fun kv => kv.2 * c)).sum = (d.map Prod.snd).sum * c := by
  induction d with
  | nil => simp
  | cons hd tl ih =>
    simp only [List.map_cons, List.sum_cons, ih]
    ring

/-- C7 amended: `holdingBySector` of an empty portfolio is the empty
mapping; when the total value is 0 every bucket reports 0.0; and when the
total value is positive each bucket is keyed by some position's
sector-or-"Unknown" and the percentages sum to 100.0 within half a cent
(1/200) per bucket — not within the claimed flat ±0.01, which fails once
more than two buckets round the same way (see the counterexample). -/
theorem c7_holding_by_sector_amended (p : StockPortfolio) :
    (p.stocks = [] → p.holding_by_sector = []) ∧
    (p.get_portfolio_value = 0 →
      ∀ kv ∈ p.holding_by_sector, (kv : String × ℚ).2 = 0) ∧
    (0 < p.get_portfolio_value →
      |((p.holding_by_sector).map Prod.snd).sum - 100| ≤
          ((p.holding_by_sector).length : ℚ) * (1 / 200) ∧
        ∀ kv ∈ p.holding_by_sector, ∃ ts ∈ p.stocks,
          (kv : String × ℚ).1 =
            pyOrUnknown (ts : String × Stock).2.company_info.sector) := by
  obtain ⟨n, l⟩ := p
  refine ⟨?_, ?_, ?_⟩
  · intro h
    obtain rfl : l = [] := h
    exact hbs_nil n
  · intro h0 kv hkv
    cases l with
    | nil => rw [hbs_nil] at hkv; simp at hkv
    | cons hd tl =>
      rw [hbs_zero _ (by simp) h0] at hkv
      exact zeroSectorDict_vals (by simp) kv hkv
  · intro hpos
    cases l with
    | nil =>
      rw [gpv_eq] at hpos
      simp [sumValues] at hpos
    | cons hd tl =>
      have hne : StockPortfolio.get_portfolio_value ⟨n, hd :: tl⟩ ≠ 0 :=
        ne_of_gt hpos
      rw [hbs_ne_zero _ (by simp) hne]
      constructor
      · rw [List.map_map]
        have hcomp : (Prod.snd ∘ fun kv : String × ℚ =>
            (kv.1, round2 (kv.2 / StockPortfolio.get_portfolio_value ⟨n, hd :: tl⟩ * 100)))
            = fun kv : String × ℚ =>
              round2 (kv.2 / StockPortfolio.get_portfolio_value ⟨n, hd :: tl⟩ * 100) := rfl
        rw [hcomp]
        have hsplit : List.map (fun kv : String × ℚ =>
            round2 (kv.2 / StockPortfolio.get_portfolio_value ⟨n, hd :: tl⟩ * 100))
              (sectorDict (hd :: tl) [])
            = List.map round2 (List.map (fun kv : String × ℚ =>
                kv.2 / StockPortfolio.get_portfolio_value ⟨n, hd :: tl⟩ * 100)
                  (sectorDict (hd :: tl) [])) := by
          rw [List.map_map]
          rfl
        rw [hsplit]
        have herr := sum_round2_err (List.map (fun kv : String × ℚ =>
          kv.2 / StockPortfolio.get_portfolio_value ⟨n, hd :: tl⟩ * 100)
            (sectorDict (hd :: tl) []))
        have hsum : (List.map (fun kv : String × ℚ =>
            kv.2 / StockPortfolio.get_portfolio_value ⟨n, hd :: tl⟩ * 100)
              (sectorDict (hd :: tl) [])).sum = 100 := by
          have hrw : (fun kv : String × ℚ =>
              kv.2 / StockPortfolio.get_portfolio_value ⟨n, hd :: tl⟩ * 100)
              = fun kv : String × ℚ =>
                kv.2 * (100 / StockPortfolio.get_portfolio_value ⟨n, hd :: tl⟩) := by
            funext kv
            ring
          rw [hrw, sumSnd_map_scale, sumSnd_sectorDict]
          have hv : sumValues (hd :: tl) =
              StockPortfolio.get_portfolio_value ⟨n, hd :: tl⟩ :=
            (gpv_eq ⟨n, hd :: tl⟩).symm
          rw [hv]
          simp only [List.map_nil, List.sum_nil, zero_add]
          field_simp
        rw [hsum] at herr
        simpa [List.length_map] using herr
      · intro kv hkv
        obtain ⟨kv0, hkv0, rfl⟩ := List.mem_map.mp hkv
        have hmem : kv0.1 ∈ (sectorDict (hd :: tl) []).map Prod.fst :=
          List.mem_map_of_mem _ hkv0
        rcases keys_sectorDict hmem with h1 | h1
        · simp at h1
        · obtain ⟨ts, hts, hx⟩ := h1
          exact ⟨ts, hts, hx⟩

/-- C7 amended, witness: the six-sector portfolio has positive total value,
its percentages sum to 100 within 6 × 1/200, and every bucket is keyed by a
position's sector. -/
theorem c7_holding_by_sector_amended_witness :
    |((StockPortfolio.holding_by_sector sixSectorPortfolio).map Prod.snd).sum
          - 100| ≤
        ((StockPortfolio.holding_by_sector sixSectorPortfolio).length : ℚ)
          * (1 / 200) ∧
      ∀ kv ∈ StockPortfolio.holding_by_sector sixSectorPortfolio,
        ∃ ts ∈ sixSectorPortfolio.stocks,
          (kv : String × ℚ).1 =
            pyOrUnknown (ts : String × Stock).2.company_info.sector :=
  (c7_holding_by_sector_amended sixSectorPortfolio).2.2 (by
    norm_num [StockPortfolio.get_portfolio_value, sixSectorPortfolio, sumValues,
      Stock.get_total_value, sampleStock])
